import Mathlib

/-!
Verification of the mfpdl downloader (src/main.rs) against its specification.

The development embeds the program shallowly:

* `download_with_sema` is embedded as a pure function from an explicit
  environment (the snapshot of the progress-bar mutexes, the response, the
  filesystem answers) to a result, an event trace and the bytes written to the
  destination file.  The Rust guards `_permit` (semaphore permit) and `pb`
  (mutex guard on a progress bar) are released by `Drop` at scope exit on
  every return path; the embedding makes those drops explicit as
  `releaseSlot` / `releasePermit` events appended on each exit path, in the
  reverse declaration order Rust uses.
* the semaphore-plus-mutex-list pool is embedded as a transition system on a
  `PoolState`, with atomicity at await points: the code between the
  completion of `sema.acquire().await` and the `try_lock` scan contains no
  suspension point, and likewise the two guard drops at function exit, so
  each of the two is one atomic transition.
* the orchestration in `main` (index fetch, latest-only branch, `try_join`
  and `try_join_all`) is embedded as a pure function over the outcomes of the
  individual tasks.
-/

/-- Bytes of one chunk yielded by the response body stream. -/
abbrev Chunk := List Nat

/-- One item of `resp.bytes_stream()`: a chunk of bytes, or a stream error. -/
inductive StreamItem where
  | chunk (c : Chunk)
  | err (e : String)
deriving DecidableEq, Repr

/-- Model of a `reqwest::Response`: the Content-Length header (absent when the
server does not report one) and the body stream.  Header and body are
independent fields, as they are in HTTP: nothing ties the sum of the chunk
sizes to `contentLength`. -/
structure Response where
  contentLength : Option Nat
  stream : List StreamItem
deriving DecidableEq, Repr

/-- Outcome of `OpenOptions::new().create_new(true).write(true).open(&path)`. -/
inductive OpenResult where
  | ok
  | alreadyExists
  | otherErr (e : String)
deriving DecidableEq, Repr

/-- Observable events of one `download_with_sema` invocation. -/
inductive Ev where
  | acquirePermit
  | lockSlot (i : Nat)
  | setLength (n : Nat)
  | setPosition (n : Nat)
  | setMessage (m : String)
  | println (s : String)
  | writeChunk (c : Chunk)
  | incBar (n : Nat)
  | releaseSlot (i : Nat)
  | releasePermit
deriving DecidableEq, Repr

/-- Environment of one `download_with_sema` call: the busy flags of the bar
mutexes at the moment of the `try_lock` scan, the response, the result of
`path.file_name()`, the result of opening the destination file, and the error
(if any) of the k-th `file.write_all` call. -/
structure DlInput where
  slots : List Bool
  resp : Response
  fileName : Option String
  openRes : OpenResult
  writeErrs : List (Option String)
deriving DecidableEq, Repr

instance exceptDecEq {e a : Type} [DecidableEq e] [DecidableEq a] :
    DecidableEq (Except e a) := fun x y =>
  match x, y with
  | Except.ok u, Except.ok v =>
      if h : u = v then isTrue (by rw [h]) else isFalse (by intro hc; cases hc; exact h rfl)
  | Except.error u, Except.error v =>
      if h : u = v then isTrue (by rw [h]) else isFalse (by intro hc; cases hc; exact h rfl)
  | Except.ok _, Except.error _ => isFalse (by intro hc; cases hc)
  | Except.error _, Except.ok _ => isFalse (by intro hc; cases hc)

/-- Result of one `download_with_sema` call: the returned
`Result<(), ErrBox>`, the event trace, whether the destination file was newly
created, and the bytes it holds at return time. -/
structure DlOutput where
  result : Except String Unit
  events : List Ev
  created : Bool
  fileBytes : List Nat
deriving DecidableEq, Repr

/-- Error message of the branch taken when the free-bar scan finds nothing. -/
def scanErrMsg : String := "Could not acquire a lock for a progress bar despite permit"

/-- Error message of the missing Content-Length branch. -/
def lenErrMsg : String := "Could not get Content-Length"

/-- Error message of the missing file-name branch. -/
def nameErrMsg : String := "Could not get file name from path"

/-- Message printed on the skip branch. -/
def skipMsg : String := "already exists, skipping"

/-- The `while let Some(res) = stream.next().await` loop of
`download_with_sema`: each iteration takes the next stream item, fails on a
stream error, writes the chunk with `file.write_all` (the k-th write fails
with `writeErrs` position k, when set), and advances the bar by the chunk
size.  Returns the loop result, the events of the loop, and the final file
bytes, starting from `acc` already on disk. -/
def streamLoop : List StreamItem → List (Option String) → Nat → List Nat →
    Except String Unit × List Ev × List Nat
  | [], _, _, acc => (Except.ok (), [], acc)
  | StreamItem.err e :: _, _, _, acc => (Except.error e, [], acc)
  | StreamItem.chunk c :: rest, wErrs, k, acc =>
      match wErrs.getD k none with
      | some e => (Except.error e, [], acc)
      | none =>
          let r := streamLoop rest wErrs (k + 1) (acc ++ c)
          (r.1, Ev.writeChunk c :: Ev.incBar c.length :: r.2.1, r.2.2)

/-- Shallow embedding of `download_with_sema` (src/main.rs lines 30-85).  The
control flow mirrors the source exactly: acquire the permit, scan the bar
mutexes with `try_lock` for the first free one, require Content-Length,
prepare the bar (length, position, message — the message argument first
extracts the file name and can fail), open the destination with
`create_new(true)` (already-exists is the skip branch, any other open error
is returned), then stream the body to the file.  On every return path the
guards `pb` and `_permit` are dropped in that order, emitting
`releaseSlot` and `releasePermit`. -/
def download_with_sema (inp : DlInput) : DlOutput :=
  match inp.slots.findIdx? (fun b => b = false) with
  | none =>
      { result := Except.error scanErrMsg,
        events := [Ev.acquirePermit, Ev.releasePermit],
        created := false, fileBytes := [] }
  | some i =>
      match inp.resp.contentLength with
      | none =>
          { result := Except.error lenErrMsg,
            events := [Ev.acquirePermit, Ev.lockSlot i,
                       Ev.releaseSlot i, Ev.releasePermit],
            created := false, fileBytes := [] }
      | some len =>
          match inp.fileName with
          | none =>
              { result := Except.error nameErrMsg,
                events := [Ev.acquirePermit, Ev.lockSlot i,
                           Ev.setLength len, Ev.setPosition 0,
                           Ev.releaseSlot i, Ev.releasePermit],
                created := false, fileBytes := [] }
          | some name =>
              match inp.openRes with
              | OpenResult.alreadyExists =>
                  { result := Except.ok (),
                    events := [Ev.acquirePermit, Ev.lockSlot i,
                               Ev.setLength len, Ev.setPosition 0,
                               Ev.setMessage name, Ev.println skipMsg,
                               Ev.setMessage "Idle",
                               Ev.releaseSlot i, Ev.releasePermit],
                    created := false, fileBytes := [] }
              | OpenResult.otherErr e =>
                  { result := Except.error e,
                    events := [Ev.acquirePermit, Ev.lockSlot i,
                               Ev.setLength len, Ev.setPosition 0,
                               Ev.setMessage name,
                               Ev.releaseSlot i, Ev.releasePermit],
                    created := false, fileBytes := [] }
              | OpenResult.ok =>
                  let r := streamLoop inp.resp.stream inp.writeErrs 0 []
                  { result := r.1,
                    events := [Ev.acquirePermit, Ev.lockSlot i,
                               Ev.setLength len, Ev.setPosition 0,
                               Ev.setMessage name] ++ r.2.1 ++
                              [Ev.releaseSlot i, Ev.releasePermit],
                    created := true, fileBytes := r.2.2 }

/-- Spec-level outcome taxonomy for one transfer: the source returns
`Ok(())` both on the skip branch and on normal completion; the two are told
apart by whether the destination file was newly created. -/
inductive Outcome where
  | completed
  | skipped
  | failed (e : String)
deriving DecidableEq, Repr

/-- Outcome of a `download_with_sema` call in the vocabulary of the spec. -/
def outcomeOf (o : DlOutput) : Outcome :=
  match o.result with
  | Except.error e => Outcome.failed e
  | Except.ok _ => if o.created then Outcome.completed else Outcome.skipped

/-- Chunks carried by the writeChunk events of a trace, in order. -/
def writesOf (evs : List Ev) : List Chunk :=
  evs.filterMap (fun e => match e with | Ev.writeChunk c => some c | _ => none)

/-- Sum of the per-chunk bar increments of a trace: the final bar position,
since the bar position is set to 0 before the loop and only `incBar`
advances it afterwards. -/
def incSum (evs : List Ev) : Nat :=
  (evs.filterMap (fun e => match e with | Ev.incBar n => some n | _ => none)).sum

/-- Total number of bytes the stream delivers in chunks (errors aside). -/
def streamBytes (items : List StreamItem) : Nat :=
  (items.map (fun it => match it with | StreamItem.chunk c => c.length | _ => 0)).sum

/-- State of the bar pool shared by the download tasks: the number of
available permits of the `tokio::sync::Semaphore` and the busy flag of each
progress-bar `Mutex` (true when some download task holds its guard). -/
structure PoolState where
  avail : Nat
  slots : List Bool
deriving DecidableEq, Repr

/-- Number of bar mutexes currently held by download tasks. -/
def busyCount (s : PoolState) : Nat := s.slots.count true

/-- Transitions of the pool performed by `download_with_sema` tasks.  The
code between the completion of `sema.acquire().await` and the successful
`try_lock` contains no suspension point, so at await-point granularity the
permit decrement and the bar lock are one atomic step; likewise the drops of
the guards `pb` and `_permit` at function return.  The `try_lock` scan takes
the first free bar, which is what `findIdx?` computes. -/
inductive PoolStep : PoolState → PoolState → Prop where
  | acquire (s : PoolState) (i : Nat) (hp : 0 < s.avail)
      (hscan : s.slots.findIdx? (fun b => b = false) = some i) :
      PoolStep s ⟨s.avail - 1, s.slots.set i true⟩
  | release (s : PoolState) (i : Nat) (hi : i < s.slots.length)
      (hb : s.slots.getD i false = true) :
      PoolStep s ⟨s.avail + 1, s.slots.set i false⟩

/-- Initial pool of `main`: `Semaphore::new(n_jobs)` and `n_jobs` bars, all
free. -/
def initPool (n : Nat) : PoolState := ⟨n, List.replicate n false⟩

/-- States the pool can reach from the initial state of capacity `n` by
download-task steps. -/
inductive PoolReachable (n : Nat) : PoolState → Prop where
  | init : PoolReachable n (initPool n)
  | step {s t : PoolState} : PoolReachable n s → PoolStep s t → PoolReachable n t

/-- Pool invariant: the slot list keeps its length and busy count plus
available permits is the capacity. -/
def poolInv (n : Nat) (s : PoolState) : Prop :=
  s.slots.length = n ∧ busyCount s + s.avail = n

theorem findIdx?_false_spec {l : List Bool} {i : Nat}
    (h : l.findIdx? (fun b => b = false) = some i) :
    ∃ hi : i < l.length, l[i] = false := by
  have h2 := List.findIdx?_of_eq_some h
  cases hget : l[i]? with
  | none => rw [hget] at h2; simp at h2
  | some a =>
      rw [hget] at h2
      simp only [decide_eq_true_eq] at h2
      obtain ⟨hi, hval⟩ := List.getElem?_eq_some.mp hget
      exact ⟨hi, by rw [hval, h2]⟩

theorem poolInv_step {n : Nat} {s t : PoolState} (hinv : poolInv n s)
    (hstep : PoolStep s t) : poolInv n t := by
  obtain ⟨hlen, hsum⟩ := hinv
  cases hstep with
  | acquire i hp hscan =>
      obtain ⟨hi, hfree⟩ := findIdx?_false_spec hscan
      constructor
      · simpa [List.length_set] using hlen
      · have hcount : (s.slots.set i true).count true = s.slots.count true + 1 := by
          rw [List.count_set _ _ _ _ hi, hfree]
          simp
        simp only [busyCount] at hsum ⊢
        rw [hcount]
        omega
  | release i hi hb =>
      have hbusy : s.slots[i] = true := by
        rw [← List.getD_eq_getElem s.slots false hi]; exact hb
      have hpos : 0 < s.slots.count true :=
        List.count_pos_iff.mpr (hbusy ▸ List.getElem_mem hi)
      constructor
      · simpa [List.length_set] using hlen
      · have hcount : (s.slots.set i false).count true = s.slots.count true - 1 := by
          rw [List.count_set _ _ _ _ hi, hbusy]
          simp
        simp only [busyCount] at hsum ⊢
        rw [hcount]
        omega

theorem pool_reachable_inv {n : Nat} {s : PoolState} (h : PoolReachable n s) :
    poolInv n s := by
  induction h with
  | init =>
      constructor
      · simp [initPool]
      · simp [initPool, busyCount, List.count_replicate]
  | step _ hstep ih => exact poolInv_step ih hstep

theorem streamLoop_nil (wErrs : List (Option String)) (k : Nat) (acc : List Nat) :
    streamLoop [] wErrs k acc = (Except.ok (), [], acc) := rfl

theorem streamLoop_err (e : String) (rest : List StreamItem)
    (wErrs : List (Option String)) (k : Nat) (acc : List Nat) :
    streamLoop (StreamItem.err e :: rest) wErrs k acc = (Except.error e, [], acc) := rfl

theorem streamLoop_chunk_werr (c : Chunk) (rest : List StreamItem)
    (wErrs : List (Option String)) (k : Nat) (acc : List Nat) (e : String)
    (hw : wErrs.getD k none = some e) :
    streamLoop (StreamItem.chunk c :: rest) wErrs k acc = (Except.error e, [], acc) := by
  simp only [streamLoop]
  rw [hw]

theorem streamLoop_chunk_ok (c : Chunk) (rest : List StreamItem)
    (wErrs : List (Option String)) (k : Nat) (acc : List Nat)
    (hw : wErrs.getD k none = none) :
    streamLoop (StreamItem.chunk c :: rest) wErrs k acc =
      ((streamLoop rest wErrs (k + 1) (acc ++ c)).1,
       Ev.writeChunk c :: Ev.incBar c.length :: (streamLoop rest wErrs (k + 1) (acc ++ c)).2.1,
       (streamLoop rest wErrs (k + 1) (acc ++ c)).2.2) := by
  simp only [streamLoop]
  rw [hw]

theorem streamLoop_ev_mem : ∀ (items : List StreamItem) (wErrs : List (Option String))
    (k : Nat) (acc : List Nat) (e : Ev), e ∈ (streamLoop items wErrs k acc).2.1 →
    (∃ c, e = Ev.writeChunk c) ∨ (∃ m, e = Ev.incBar m) := by
  intro items
  induction items with
  | nil => intro wErrs k acc e h; simp [streamLoop] at h
  | cons it rest ih =>
      intro wErrs k acc e h
      cases it with
      | err s => simp [streamLoop] at h
      | chunk c =>
          simp only [streamLoop] at h
          cases hw : wErrs.getD k none with
          | some s => rw [hw] at h; simp at h
          | none =>
              rw [hw] at h
              simp only [List.mem_cons] at h
              rcases h with h | h | h
              · exact Or.inl ⟨c, h⟩
              · exact Or.inr ⟨c.length, h⟩
              · exact ih wErrs (k + 1) (acc ++ c) e h

theorem streamLoop_fileBytes : ∀ (items : List StreamItem) (wErrs : List (Option String))
    (k : Nat) (acc : List Nat),
    (streamLoop items wErrs k acc).2.2 =
      acc ++ (writesOf (streamLoop items wErrs k acc).2.1).flatten := by
  intro items
  induction items with
  | nil => intro wErrs k acc; simp [streamLoop, writesOf]
  | cons it rest ih =>
      intro wErrs k acc
      cases it with
      | err s => simp [streamLoop, writesOf]
      | chunk c =>
          simp only [streamLoop]
          cases hw : wErrs.getD k none with
          | some s => simp [writesOf]
          | none =>
              simp only [writesOf, List.filterMap_cons]
              rw [← writesOf, ih wErrs (k + 1) (acc ++ c)]
              simp

theorem streamLoop_ok_length : ∀ (items : List StreamItem) (wErrs : List (Option String))
    (k : Nat) (acc : List Nat), (streamLoop items wErrs k acc).1 = Except.ok () →
    (streamLoop items wErrs k acc).2.2.length = acc.length + streamBytes items := by
  intro items
  induction items with
  | nil => intro wErrs k acc _; simp [streamLoop, streamBytes]
  | cons it rest ih =>
      intro wErrs k acc hok
      cases it with
      | err s => simp [streamLoop_err] at hok
      | chunk c =>
          cases hw : wErrs.getD k none with
          | some s => rw [streamLoop_chunk_werr c rest wErrs k acc s hw] at hok; simp at hok
          | none =>
              rw [streamLoop_chunk_ok c rest wErrs k acc hw] at hok ⊢
              have := ih wErrs (k + 1) (acc ++ c) hok
              simp only [streamBytes, List.map_cons, List.sum_cons] at this ⊢
              simp only [List.length_append] at this
              omega

theorem streamLoop_incSum : ∀ (items : List StreamItem) (wErrs : List (Option String))
    (k : Nat) (acc : List Nat),
    incSum (streamLoop items wErrs k acc).2.1 =
      ((writesOf (streamLoop items wErrs k acc).2.1).map List.length).sum := by
  intro items
  induction items with
  | nil => intro wErrs k acc; simp [streamLoop, incSum, writesOf]
  | cons it rest ih =>
      intro wErrs k acc
      cases it with
      | err s => simp [streamLoop_err, incSum, writesOf]
      | chunk c =>
          cases hw : wErrs.getD k none with
          | some s => rw [streamLoop_chunk_werr c rest wErrs k acc s hw]; simp [incSum, writesOf]
          | none =>
              rw [streamLoop_chunk_ok c rest wErrs k acc hw]
              have := ih wErrs (k + 1) (acc ++ c)
              simp only [incSum, writesOf, List.filterMap_cons] at this ⊢
              simp only [List.sum_cons, List.map_cons]
              omega

theorem free_slot_exists {l : List Bool} (hlt : l.count true < l.length) :
    ∃ i, l.findIdx? (fun b => b = false) = some i := by
  cases hscan : l.findIdx? (fun b => b = false) with
  | some i => exact ⟨i, rfl⟩
  | none =>
      exfalso
      have hall := List.findIdx?_eq_none_iff.mp hscan
      have : l.count true = l.length := by
        rw [List.count_eq_length]
        intro b hb
        have := hall b hb
        simp only [decide_eq_false_iff_not] at this
        cases b with
        | true => rfl
        | false => exact absurd rfl this
      omega

/-- C1: for a slot pool of capacity N, at every reachable instant the number
of bars held busy by download tasks is at most N and equals N minus the
available semaphore permits; the step relation `PoolStep` is the only way the
pool mutates, and each of its two steps changes the permit count and a busy
flag together. -/
theorem c1_busy_count_matches_permits (n : Nat) (s : PoolState)
    (h : PoolReachable n s) :
    busyCount s ≤ n ∧ busyCount s + s.avail = n := by
  obtain ⟨-, hsum⟩ := pool_reachable_inv h
  exact ⟨by omega, hsum⟩

/-- State of a capacity-2 pool after one acquisition. -/
def poolWitState : PoolState := ⟨1, [true, false]⟩

theorem c1_busy_count_matches_permits_witness :
    busyCount poolWitState ≤ 2 ∧ busyCount poolWitState + poolWitState.avail = 2 :=
  c1_busy_count_matches_permits 2 poolWitState
    (PoolReachable.step PoolReachable.init
      (PoolStep.acquire (initPool 2) 0 (by decide) (by decide)))

/-- C3: in every reachable pool state in which a permit is available for a
task to take, the try-lock scan over the bars finds a free one, so the branch
returning the despite-permit error is unreachable; in the embedding the call
locks a bar, witnessed by the lockSlot event in its trace. -/
theorem c3_scan_succeeds_under_permit (n : Nat) (s : PoolState) (inp : DlInput)
    (hreach : PoolReachable n s) (hp : 0 < s.avail) (hslots : inp.slots = s.slots) :
    ∃ i, inp.slots.findIdx? (fun b => b = false) = some i ∧
      Ev.lockSlot i ∈ (download_with_sema inp).events := by
  obtain ⟨hlen, hsum⟩ := pool_reachable_inv hreach
  have hlt : inp.slots.count true < inp.slots.length := by
    rw [hslots]
    simp only [busyCount] at hsum
    omega
  obtain ⟨i, hscan⟩ := free_slot_exists hlt
  refine ⟨i, hscan, ?_⟩
  simp only [download_with_sema, hscan]
  cases inp.resp.contentLength with
  | none => simp
  | some len =>
      cases inp.fileName with
      | none => simp
      | some name =>
          cases inp.openRes with
          | alreadyExists => simp
          | otherErr e => simp
          | ok => simp

/-- Input whose pool snapshot is the one free bar of a fresh capacity-1 pool. -/
def c3WitInput : DlInput :=
  { slots := [false], resp := { contentLength := none, stream := [] },
    fileName := none, openRes := OpenResult.ok, writeErrs := [] }

theorem c3_scan_succeeds_under_permit_witness :
    ∃ i, c3WitInput.slots.findIdx? (fun b => b = false) = some i ∧
      Ev.lockSlot i ∈ (download_with_sema c3WitInput).events :=
  c3_scan_succeeds_under_permit 1 (initPool 1) c3WitInput
    PoolReachable.init (by decide) rfl

theorem streamLoop_count_zero (items : List StreamItem) (wErrs : List (Option String))
    (k : Nat) (acc : List Nat) (e : Ev)
    (he : (∀ c, e ≠ Ev.writeChunk c) ∧ ∀ m, e ≠ Ev.incBar m) :
    (streamLoop items wErrs k acc).2.1.count e = 0 := by
  rw [List.count_eq_zero]
  intro hmem
  rcases streamLoop_ev_mem items wErrs k acc e hmem with ⟨c, hc⟩ | ⟨m, hm⟩
  · exact he.1 c hc
  · exact he.2 m hm

/-- C2: an invocation of `download_with_sema` that acquires the permit and
locks bar i emits exactly one acquisition and one release of each, on every
exit path: missing Content-Length, missing file name, skip because the
destination exists, file-open error, stream or write error, and normal
completion. -/
theorem c2_release_exactly_once (inp : DlInput) (i : Nat)
    (hscan : inp.slots.findIdx? (fun b => b = false) = some i) :
    (download_with_sema inp).events.count Ev.acquirePermit = 1 ∧
    (download_with_sema inp).events.count (Ev.lockSlot i) = 1 ∧
    (download_with_sema inp).events.count (Ev.releaseSlot i) = 1 ∧
    (download_with_sema inp).events.count Ev.releasePermit = 1 := by
  simp only [download_with_sema, hscan]
  cases inp.resp.contentLength with
  | none => simp [List.count_cons, List.count_nil]
  | some len =>
      cases inp.fileName with
      | none => simp [List.count_cons, List.count_nil]
      | some name =>
          cases inp.openRes with
          | alreadyExists => simp [List.count_cons, List.count_nil]
          | otherErr e => simp [List.count_cons, List.count_nil]
          | ok =>
              have h1 := streamLoop_count_zero inp.resp.stream inp.writeErrs 0 []
                Ev.acquirePermit (by constructor <;> intro x <;> simp)
              have h2 := streamLoop_count_zero inp.resp.stream inp.writeErrs 0 []
                (Ev.lockSlot i) (by constructor <;> intro x <;> simp)
              have h3 := streamLoop_count_zero inp.resp.stream inp.writeErrs 0 []
                (Ev.releaseSlot i) (by constructor <;> intro x <;> simp)
              have h4 := streamLoop_count_zero inp.resp.stream inp.writeErrs 0 []
                Ev.releasePermit (by constructor <;> intro x <;> simp)
              simp [List.count_cons, List.count_append, List.count_nil, h1, h2, h3, h4]

/-- Environment of a one-chunk transfer to a fresh destination through a
pool with one free bar. -/
def c2WitInput : DlInput :=
  { slots := [false], resp := { contentLength := some 3, stream := [StreamItem.chunk [1, 2, 3]] },
    fileName := some "f.mp3", openRes := OpenResult.ok, writeErrs := [] }

theorem c2_release_exactly_once_witness :
    (download_with_sema c2WitInput).events.count Ev.acquirePermit = 1 ∧
    (download_with_sema c2WitInput).events.count (Ev.lockSlot 0) = 1 ∧
    (download_with_sema c2WitInput).events.count (Ev.releaseSlot 0) = 1 ∧
    (download_with_sema c2WitInput).events.count Ev.releasePermit = 1 :=
  c2_release_exactly_once c2WitInput 0 (by decide)

theorem incSum_append (a b : List Ev) : incSum (a ++ b) = incSum a + incSum b := by
  simp [incSum, List.filterMap_append]

theorem writesOf_append (a b : List Ev) : writesOf (a ++ b) = writesOf a ++ writesOf b := by
  simp [writesOf, List.filterMap_append]

/-- Transfer environment with an existing destination and a response that
reports no Content-Length. -/
def c4CexInput : DlInput :=
  { slots := [false], resp := { contentLength := none, stream := [] },
    fileName := some "a.mp3", openRes := OpenResult.alreadyExists, writeErrs := [] }

/-- C4 counterexample: a transfer whose destination already exists but whose
response reports no Content-Length fails with the length error instead of
returning the skip outcome: the code requires Content-Length before it opens
the destination, so the existing-file check does not decide the outcome
first. -/
theorem c4_exists_without_length_not_skipped :
    c4CexInput.openRes = OpenResult.alreadyExists ∧
    outcomeOf (download_with_sema c4CexInput) = Outcome.failed lenErrMsg ∧
    outcomeOf (download_with_sema c4CexInput) ≠ Outcome.skipped := by
  refine ⟨rfl, rfl, ?_⟩
  intro h
  exact absurd h (by decide)

/-- C4 amended: the Content-Length requirement precedes the existing-file
check.  A transfer whose destination exists returns the skip outcome
provided the response reports a length and the path yields a file name, and
fails with the length error when no length is reported even though the
destination exists; on all these paths nothing is written and no file is
created or mutated. -/
theorem c4_skip_after_length_check (inp : DlInput) (i : Nat)
    (hscan : inp.slots.findIdx? (fun b => b = false) = some i)
    (hex : inp.openRes = OpenResult.alreadyExists) :
    (inp.resp.contentLength = none →
        (download_with_sema inp).result = Except.error lenErrMsg) ∧
    (∀ len name, inp.resp.contentLength = some len → inp.fileName = some name →
        outcomeOf (download_with_sema inp) = Outcome.skipped) ∧
    (download_with_sema inp).created = false ∧
    (download_with_sema inp).fileBytes = [] ∧
    writesOf (download_with_sema inp).events = [] := by
  refine ⟨?_, ?_, ?_, ?_, ?_⟩
  · intro hcl
    simp only [download_with_sema, hscan, hcl]
  · intro len name hcl hfn
    simp only [download_with_sema, hscan, hcl, hfn, hex, outcomeOf]
    rfl
  · cases hcl : inp.resp.contentLength with
    | none => simp only [download_with_sema, hscan, hcl]
    | some len =>
        cases hfn : inp.fileName with
        | none => simp only [download_with_sema, hscan, hcl, hfn]
        | some name => simp only [download_with_sema, hscan, hcl, hfn, hex]
  · cases hcl : inp.resp.contentLength with
    | none => simp only [download_with_sema, hscan, hcl]
    | some len =>
        cases hfn : inp.fileName with
        | none => simp only [download_with_sema, hscan, hcl, hfn]
        | some name => simp only [download_with_sema, hscan, hcl, hfn, hex]
  · cases hcl : inp.resp.contentLength with
    | none => simp only [download_with_sema, hscan, hcl]; simp [writesOf]
    | some len =>
        cases hfn : inp.fileName with
        | none => simp only [download_with_sema, hscan, hcl, hfn]; simp [writesOf]
        | some name => simp only [download_with_sema, hscan, hcl, hfn, hex]; simp [writesOf]

theorem c4_skip_after_length_check_witness :
    ((c4CexInput.resp.contentLength = none →
        (download_with_sema c4CexInput).result = Except.error lenErrMsg) ∧
     (∀ len name, c4CexInput.resp.contentLength = some len → c4CexInput.fileName = some name →
        outcomeOf (download_with_sema c4CexInput) = Outcome.skipped) ∧
     (download_with_sema c4CexInput).created = false ∧
     (download_with_sema c4CexInput).fileBytes = [] ∧
     writesOf (download_with_sema c4CexInput).events = []) :=
  c4_skip_after_length_check c4CexInput 0 (by decide) rfl

/-- Transfer environment whose response announces 10 bytes but whose stream
delivers only 3. -/
def c5CexInput : DlInput :=
  { slots := [false], resp := { contentLength := some 10, stream := [StreamItem.chunk [1, 2, 3]] },
    fileName := some "a.mp3", openRes := OpenResult.ok, writeErrs := [] }

/-- C5 counterexample: a transfer can return the Completed outcome while the
final file size differs from the reported Content-Length, because the code
never compares the number of streamed bytes with the announced total: here
the response reports 10 bytes, the stream delivers 3, and a 3-byte file
results. -/
theorem c5_completed_size_differs_from_reported :
    outcomeOf (download_with_sema c5CexInput) = Outcome.completed ∧
    c5CexInput.resp.contentLength = some 10 ∧
    (download_with_sema c5CexInput).fileBytes.length = 3 := by
  refine ⟨?_, rfl, ?_⟩ <;> rfl

/-- C5 amended: for a Completed transfer the final on-disk size equals the
slot final position, the sum of the per-chunk increments, both being the
number of bytes the stream delivered; that number equals the reported
Content-Length only under the extra assumption that the stream delivers
exactly the announced amount, which the code does not check. -/
theorem c5_completed_size_eq_final_position (inp : DlInput)
    (hc : outcomeOf (download_with_sema inp) = Outcome.completed) :
    (download_with_sema inp).fileBytes.length = incSum (download_with_sema inp).events ∧
    (∀ len, inp.resp.contentLength = some len → streamBytes inp.resp.stream = len →
      (download_with_sema inp).fileBytes.length = len) := by
  cases hscan : inp.slots.findIdx? (fun b => b = false) with
  | none =>
      exfalso
      simp only [download_with_sema, hscan, outcomeOf] at hc
      exact Outcome.noConfusion hc
  | some i =>
      cases hcl : inp.resp.contentLength with
      | none =>
          exfalso
          simp only [download_with_sema, hscan, hcl, outcomeOf] at hc
          exact Outcome.noConfusion hc
      | some len =>
          cases hfn : inp.fileName with
          | none =>
              exfalso
              simp only [download_with_sema, hscan, hcl, hfn, outcomeOf] at hc
              exact Outcome.noConfusion hc
          | some name =>
              cases hop : inp.openRes with
              | alreadyExists =>
                  exfalso
                  simp only [download_with_sema, hscan, hcl, hfn, hop, outcomeOf] at hc
                  exact absurd hc (by decide)
              | otherErr e =>
                  exfalso
                  simp only [download_with_sema, hscan, hcl, hfn, hop, outcomeOf] at hc
                  exact Outcome.noConfusion hc
              | ok =>
                  simp only [download_with_sema, hscan, hcl, hfn, hop, outcomeOf] at hc ⊢
                  have hok : (streamLoop inp.resp.stream inp.writeErrs 0 []).1 = Except.ok () := by
                    cases hres : (streamLoop inp.resp.stream inp.writeErrs 0 []).1 with
                    | ok u => cases u; rfl
                    | error e => rw [hres] at hc; exact absurd hc (by simp)
                  constructor
                  · rw [streamLoop_fileBytes inp.resp.stream inp.writeErrs 0 []]
                    rw [incSum_append, incSum_append]
                    rw [streamLoop_incSum inp.resp.stream inp.writeErrs 0 []]
                    simp [incSum, List.length_flatten]
                  · intro l hl hbytes
                    have hlen := streamLoop_ok_length inp.resp.stream inp.writeErrs 0 [] hok
                    cases hl
                    simp only [List.length_nil, Nat.zero_add] at hlen
                    omega

/-- C5 amended witness environment: the response reports 3 bytes and the
stream delivers exactly 3. -/
def c5WitInput : DlInput :=
  { slots := [false], resp := { contentLength := some 3, stream := [StreamItem.chunk [7, 8, 9]] },
    fileName := some "b.mp3", openRes := OpenResult.ok, writeErrs := [] }

theorem c5_completed_size_eq_final_position_witness :
    (download_with_sema c5WitInput).fileBytes.length = incSum (download_with_sema c5WitInput).events ∧
    (∀ len, c5WitInput.resp.contentLength = some len → streamBytes c5WitInput.resp.stream = len →
      (download_with_sema c5WitInput).fileBytes.length = len) :=
  c5_completed_size_eq_final_position c5WitInput (by rfl)

/-- C7: when the body stream or a write fails during a transfer that had
created its destination, the call returns exactly that error, the file is
neither removed nor truncated (it remains created, with its accumulated
content) and its bytes are exactly the concatenation of the chunks whose
write succeeded before the error, the chunks recorded by the writeChunk
events of the trace. -/
theorem c7_partial_file_kept_on_error (inp : DlInput) (i len : Nat) (name e : String)
    (hscan : inp.slots.findIdx? (fun b => b = false) = some i)
    (hcl : inp.resp.contentLength = some len)
    (hfn : inp.fileName = some name)
    (hop : inp.openRes = OpenResult.ok)
    (herr : (streamLoop inp.resp.stream inp.writeErrs 0 []).1 = Except.error e) :
    (download_with_sema inp).result = Except.error e ∧
    (download_with_sema inp).created = true ∧
    (download_with_sema inp).fileBytes =
      (writesOf (download_with_sema inp).events).flatten := by
  simp only [download_with_sema, hscan, hcl, hfn, hop]
  refine ⟨herr, by trivial, ?_⟩
  rw [writesOf_append, writesOf_append]
  rw [streamLoop_fileBytes inp.resp.stream inp.writeErrs 0 []]
  simp [writesOf]

/-- Transfer environment whose stream delivers one 1-byte chunk and then a
stream error. -/
def c7WitInput : DlInput :=
  { slots := [false],
    resp := { contentLength := some 9, stream := [StreamItem.chunk [5], StreamItem.err "boom"] },
    fileName := some "c.mp3", openRes := OpenResult.ok, writeErrs := [] }

theorem c7_partial_file_kept_on_error_witness :
    (download_with_sema c7WitInput).result = Except.error "boom" ∧
    (download_with_sema c7WitInput).created = true ∧
    (download_with_sema c7WitInput).fileBytes =
      (writesOf (download_with_sema c7WitInput).events).flatten :=
  c7_partial_file_kept_on_error c7WitInput 0 9 "c.mp3" "boom" (by decide) rfl rfl rfl (by decide)

/-- Index page URL, MFP_URL in the source. -/
def MFP_URL : String := "https://www.musicforprogramming.net"

/-- Message of the panic taken when the index fetch has a non-success
status. -/
def indexPanicMsg : String := "Request failed for https://www.musicforprogramming.net"

/-- Outcome and transfer side effects of one download task once awaited. -/
structure TaskModel where
  result : Except String Unit
  trace : List Ev
deriving DecidableEq, Repr

/-- How a run of main terminates: a panic (the non-success index status
branch) or a normal return with a Result; both an error Result and a panic
give the process a non-zero exit status. -/
inductive RunOutcome where
  | panicked (msg : String)
  | finished (r : Except String Unit)
deriving DecidableEq, Repr

/-- Result-level semantics of `future::try_join` on two completed outcomes:
the pair succeeds only if both do.  Which error value surfaces when both
fail depends on timing; this model keeps the left one, and every theorem
below uses only whether the outcome is an error. -/
def tryJoin (a b : Except String Unit) : Except String Unit :=
  match a with
  | Except.error e => Except.error e
  | Except.ok _ => b

/-- Result-level semantics of `future::try_join_all` on completed outcomes:
ok only when every element is ok, an error of a failing element otherwise. -/
def tryJoinAll : List (Except String Unit) → Except String Unit
  | [] => Except.ok ()
  | Except.error e :: _ => Except.error e
  | Except.ok _ :: rest => tryJoinAll rest

/-- Environment of one run of main: the outcome of every awaited external
step, in source order.  `latestTask` and `itemTasks` give the result and the
transfer side effects each download future produces when (and only when) it
is awaited. -/
structure MainInput where
  latestOnly : Bool
  indexFetch : Except String Unit
  indexStatusSuccess : Bool
  latestScrape : Except String String
  latestGet : Except String Unit
  indexText : Except String String
  latestTask : TaskModel
  itemTasks : List TaskModel
  barJoin : Except String Unit
deriving DecidableEq, Repr

/-- Shallow embedding of main (src/main.rs lines 152-249).  CLI parsing, bar
and semaphore construction and create_dir_all precede the index fetch and
perform no transfer side effects, so they are not part of the trace.  The
steps follow the source: fetch the index (the question-mark operator returns
its error), panic when the status is not a success, scrape the latest file
URL, fetch it, take the index body text — each question mark an early
return; then, only in the joint branch, await the latest future together
with the try_join_all of the per-item futures (the trace of that branch is
one serialization of the interleaving); finally join with the bar-drawing
future.  In the latest-only branch the per-item futures are constructed but
never awaited, so they contribute nothing. -/
def mainRun (inp : MainInput) : RunOutcome × List Ev :=
  match inp.indexFetch with
  | Except.error e => (RunOutcome.finished (Except.error e), [])
  | Except.ok _ =>
    if inp.indexStatusSuccess = false then
      (RunOutcome.panicked indexPanicMsg, [])
    else
      match inp.latestScrape with
      | Except.error e => (RunOutcome.finished (Except.error e), [])
      | Except.ok _latestUrl =>
        match inp.latestGet with
        | Except.error e => (RunOutcome.finished (Except.error e), [])
        | Except.ok _ =>
          match inp.indexText with
          | Except.error e => (RunOutcome.finished (Except.error e), [])
          | Except.ok _body =>
            let dl :=
              if inp.latestOnly then
                (inp.latestTask.result, inp.latestTask.trace)
              else
                (tryJoin inp.latestTask.result
                   (tryJoinAll (inp.itemTasks.map TaskModel.result)),
                 inp.latestTask.trace ++ (inp.itemTasks.map TaskModel.trace).flatten)
            (RunOutcome.finished (tryJoin dl.1 inp.barJoin), dl.2)

/-- Failure of a run as the shell sees it: a panic or an error Result both
exit non-zero. -/
def runFailed : RunOutcome → Bool
  | RunOutcome.panicked _ => true
  | RunOutcome.finished (Except.error _) => true
  | RunOutcome.finished (Except.ok _) => false

theorem tryJoinAll_error_of_mem {rs : List (Except String Unit)}
    (h : ∃ r ∈ rs, ∃ e, r = Except.error e) :
    ∃ e, tryJoinAll rs = Except.error e := by
  induction rs with
  | nil => obtain ⟨r, hmem, -⟩ := h; cases hmem
  | cons hd tl ih =>
      obtain ⟨r, hmem, e, herr⟩ := h
      cases hd with
      | error e2 => exact ⟨e2, rfl⟩
      | ok u =>
          cases List.mem_cons.mp hmem with
          | inl hr => rw [hr] at herr; cases herr
          | inr hr => exact ih ⟨r, hr, e, herr⟩

theorem tryJoin_error {a b : Except String Unit}
    (h : (∃ e, a = Except.error e) ∨ (∃ e, b = Except.error e)) :
    ∃ e, tryJoin a b = Except.error e := by
  cases a with
  | error e => exact ⟨e, rfl⟩
  | ok u =>
      cases h with
      | inl h2 => obtain ⟨e, he⟩ := h2; cases he
      | inr h2 => obtain ⟨e, he⟩ := h2; exact ⟨e, by simp [tryJoin, he]⟩

/-- C6: in the joint (non-latest-only) branch, when the latest task or any
per-item task returns an error, the run as a whole fails (non-zero exit),
whatever the outcomes of the other tasks and of the bar-drawing future. -/
theorem c6_fail_fast_join (inp : MainInput)
    (hl : inp.latestOnly = false)
    (herr : (∃ e, inp.latestTask.result = Except.error e) ∨
            (∃ t ∈ inp.itemTasks, ∃ e, t.result = Except.error e)) :
    runFailed (mainRun inp).1 = true := by
  cases hf : inp.indexFetch with
  | error e => simp [mainRun, hf, runFailed]
  | ok u =>
      cases u
      cases hst : inp.indexStatusSuccess with
      | false => simp [mainRun, hf, hst, runFailed]
      | true =>
          cases hsc : inp.latestScrape with
          | error e => simp [mainRun, hf, hst, hsc, runFailed]
          | ok lurl =>
              cases hg : inp.latestGet with
              | error e => simp [mainRun, hf, hst, hsc, hg, runFailed]
              | ok v =>
                  cases v
                  cases ht : inp.indexText with
                  | error e => simp [mainRun, hf, hst, hsc, hg, ht, runFailed]
                  | ok body =>
                      have hdl : ∃ e, tryJoin inp.latestTask.result
                          (tryJoinAll (inp.itemTasks.map TaskModel.result)) =
                          Except.error e := by
                        apply tryJoin_error
                        cases herr with
                        | inl h2 => exact Or.inl h2
                        | inr h2 =>
                            refine Or.inr (tryJoinAll_error_of_mem ?_)
                            obtain ⟨t, hmem, e, he⟩ := h2
                            exact ⟨t.result, List.mem_map_of_mem TaskModel.result hmem, e, he⟩
                      obtain ⟨e, he⟩ := hdl
                      obtain ⟨e2, he2⟩ := tryJoin_error (a := tryJoin inp.latestTask.result
                          (tryJoinAll (inp.itemTasks.map TaskModel.result))) (b := inp.barJoin)
                          (Or.inl ⟨e, he⟩)
                      simp [mainRun, hf, hst, hsc, hg, ht, hl, he2, runFailed]

/-- Run environment in which one item task fails while everything else
succeeds. -/
def c6WitInput : MainInput :=
  { latestOnly := false, indexFetch := Except.ok (), indexStatusSuccess := true,
    latestScrape := Except.ok "https://x/f.mp3", latestGet := Except.ok (),
    indexText := Except.ok "body",
    latestTask := { result := Except.ok (), trace := [] },
    itemTasks := [{ result := Except.ok (), trace := [] },
                  { result := Except.error "item failed", trace := [] }],
    barJoin := Except.ok () }

theorem c6_fail_fast_join_witness : runFailed (mainRun c6WitInput).1 = true :=
  c6_fail_fast_join c6WitInput rfl
    (Or.inr ⟨{ result := Except.error "item failed", trace := [] },
             by simp [c6WitInput], "item failed", rfl⟩)

/-- C8: in latest-only mode the run never awaits the per-item futures: its
outcome and trace do not depend on the item tasks at all, and the transfer
side effects are empty on every early-error path and exactly the latest
task's otherwise. -/
theorem c8_latest_only_skips_fanout (inp : MainInput) (items2 : List TaskModel)
    (hl : inp.latestOnly = true) :
    mainRun inp = mainRun { inp with itemTasks := items2 } ∧
    ((mainRun inp).2 = [] ∨ (mainRun inp).2 = inp.latestTask.trace) := by
  cases hf : inp.indexFetch with
  | error e => simp [mainRun, hf]
  | ok u =>
      cases u
      cases hst : inp.indexStatusSuccess with
      | false => simp [mainRun, hf, hst]
      | true =>
          cases hsc : inp.latestScrape with
          | error e => simp [mainRun, hf, hst, hsc]
          | ok lurl =>
              cases hg : inp.latestGet with
              | error e => simp [mainRun, hf, hst, hsc, hg]
              | ok v =>
                  cases v
                  cases ht : inp.indexText with
                  | error e => simp [mainRun, hf, hst, hsc, hg, ht]
                  | ok body => simp [mainRun, hf, hst, hsc, hg, ht, hl]

/-- Run environment for latest-only mode with a nonempty item list. -/
def c8WitInput : MainInput :=
  { latestOnly := true, indexFetch := Except.ok (), indexStatusSuccess := true,
    latestScrape := Except.ok "https://x/f.mp3", latestGet := Except.ok (),
    indexText := Except.ok "body",
    latestTask := { result := Except.ok (), trace := [Ev.acquirePermit, Ev.releasePermit] },
    itemTasks := [{ result := Except.error "boom", trace := [Ev.writeChunk [1]] }],
    barJoin := Except.ok () }

theorem c8_latest_only_skips_fanout_witness :
    mainRun c8WitInput = mainRun { c8WitInput with itemTasks := [] } ∧
    ((mainRun c8WitInput).2 = [] ∨ (mainRun c8WitInput).2 = c8WitInput.latestTask.trace) :=
  c8_latest_only_skips_fanout c8WitInput [] rfl

/-- C9: when the index fetch completes with a non-success status the run
panics (non-zero exit) before resolving or transferring anything: the trace
is empty, so no permit acquisition, slot update or file write has happened
and no destination file has been created. -/
theorem c9_index_status_failure_halts (inp : MainInput)
    (hfetch : inp.indexFetch = Except.ok ())
    (hstatus : inp.indexStatusSuccess = false) :
    (mainRun inp).1 = RunOutcome.panicked indexPanicMsg ∧
    (mainRun inp).2 = [] ∧
    runFailed (mainRun inp).1 = true := by
  simp [mainRun, hfetch, hstatus, runFailed]

/-- Run environment whose index fetch returns a non-success status. -/
def c9WitInput : MainInput :=
  { latestOnly := false, indexFetch := Except.ok (), indexStatusSuccess := false,
    latestScrape := Except.ok "u", latestGet := Except.ok (),
    indexText := Except.ok "body",
    latestTask := { result := Except.ok (), trace := [] },
    itemTasks := [], barJoin := Except.ok () }

theorem c9_index_status_failure_halts_witness :
    (mainRun c9WitInput).1 = RunOutcome.panicked indexPanicMsg ∧
    (mainRun c9WitInput).2 = [] ∧
    runFailed (mainRun c9WitInput).1 = true :=
  c9_index_status_failure_halts c9WitInput rfl rfl

/-- Observable behaviour of one episode subpage as `scrape_episode_file_url`
sees it: the fetch outcome, the body text outcome, and the first match of
the mp3 file selector — absent entirely, or present with or without an
href attribute. -/
structure EpisodePage where
  fetch : Except String Unit
  text : Except String String
  fileLink : Option (Option String)
deriving DecidableEq, Repr

/-- Shallow embedding of `scrape_episode_file_url` (src/main.rs lines
88-102): fetch the page, take its text, select the first file link — absence
of the link and absence of its href attribute are both returned as error
values through ok_or_else, never panics. -/
def scrape_episode_file_url (url : String) (page : EpisodePage) : Except String String :=
  match page.fetch with
  | Except.error e => Except.error e
  | Except.ok _ =>
    match page.text with
    | Except.error e => Except.error e
    | Except.ok _ =>
      match page.fileLink with
      | none => Except.error ("Could not find file URL for " ++ url)
      | some none => Except.error ("Could not find href for file URL element in " ++ url)
      | some (some href) => Except.ok href

/-- Result of polling one per-item future: Rust distinguishes returning an
error value, which the fail-fast join consumes, from panicking inside the
task, which unwinds instead of becoming an Err. -/
inductive TaskResult where
  | ok
  | err (e : String)
  | panicked (msg : String)
deriving DecidableEq, Repr

/-- Message of the panic `Option::unwrap` raises on a missing value. -/
def unwrapPanicMsg : String := "called unwrap on a None value"

/-- Environment of one per-item future of dl_futs: the href attribute of the
matched index anchor, the episode subpage, the outcome of fetching the file
URL, and the environment of the download call. -/
structure ItemEnv where
  indexHref : Option String
  subpage : EpisodePage
  fileGet : Except String Unit
  dl : DlInput
deriving DecidableEq, Repr

/-- Shallow embedding of one element of dl_futs (src/main.rs lines 205-217):
the index anchor's href is taken with unwrap — a panic when absent — then
the subpage is scraped, the file URL fetched and the download performed,
each error returned with the question mark. -/
def itemTask (env : ItemEnv) : TaskResult :=
  match env.indexHref with
  | none => TaskResult.panicked unwrapPanicMsg
  | some sub =>
      match scrape_episode_file_url (MFP_URL ++ "/" ++ sub) env.subpage with
      | Except.error e => TaskResult.err e
      | Except.ok _fileUrl =>
          match env.fileGet with
          | Except.error e => TaskResult.err e
          | Except.ok _ =>
              match (download_with_sema env.dl).result with
              | Except.error e => TaskResult.err e
              | Except.ok _ => TaskResult.ok

/-- C10: an index episode anchor without an href makes the per-item task
panic through unwrap instead of handing a resolution error to the fail-fast
join, whereas a missing href on the file link of an episode subpage yields
an error value from `scrape_episode_file_url`, the NotFound-style outcome. -/
theorem c10_index_href_panics_subpage_href_errors (env : ItemEnv)
    (url body : String) (page : EpisodePage)
    (hidx : env.indexHref = none)
    (hfetch : page.fetch = Except.ok ())
    (htext : page.text = Except.ok body)
    (hlink : page.fileLink = some none) :
    itemTask env = TaskResult.panicked unwrapPanicMsg ∧
    scrape_episode_file_url url page =
      Except.error ("Could not find href for file URL element in " ++ url) := by
  constructor
  · simp [itemTask, hidx]
  · simp [scrape_episode_file_url, hfetch, htext, hlink]

/-- Per-item environment whose index anchor has no href. -/
def c10WitEnv : ItemEnv :=
  { indexHref := none,
    subpage := { fetch := Except.ok (), text := Except.ok "b", fileLink := some none },
    fileGet := Except.ok (),
    dl := c2WitInput }

/-- Subpage whose file link has no href. -/
def c10WitPage : EpisodePage :=
  { fetch := Except.ok (), text := Except.ok "b", fileLink := some none }

theorem c10_index_href_panics_subpage_href_errors_witness :
    itemTask c10WitEnv = TaskResult.panicked unwrapPanicMsg ∧
    scrape_episode_file_url "u" c10WitPage =
      Except.error ("Could not find href for file URL element in " ++ "u") :=
  c10_index_href_panics_subpage_href_errors c10WitEnv "u" "b" c10WitPage rfl rfl rfl rfl
